import Mathlib

set_option linter.dupNamespace false

/-!
Shallow embedding of the vdf-parser repository (Valve KeyValues text format).

Two tokenizer revisions exist in the repository and are both embedded here:

* namespace `Tokenizer` — the state machine of `src/tokenizer.ts` (the revision
  with `previousChar`, `NEST` tokens carrying a bracket character, positions,
  and unsupported escape sequences handled as normal characters);
* namespace `CtlTokenizer` — the revision implementing the interface that
  `src/parser.ts` imports (`TokenResponse`/`ControlResponse` with a `token`
  field and `ControlType`), used by the aggregator-level claims.

JS strings are modelled as `List Char` (`for (const c of text)` iterates code
points). Thrown errors are modelled with `Except`. Generator emission is
modelled as returning the ordered list of emitted responses. Diagnostic-only
machinery (`verbose` tracing, `debugBuffer` and the `near` window of error
messages) is dropped; the line/column counters of the `src/tokenizer.ts`
revision are kept.
-/

/-- A JS string, as the sequence of its characters. -/
abbrev Str := List Char

namespace Tokenizer

/-- `TokenizerState` of src/tokenizer.ts. -/
inductive TokenizerState where
  | inKeyWithQuote
  | inValueWithQuote
  | inKeyWithoutQuote
  | inValueWithoutQuote
  | afterKey
  | afterValue
  | commentAfterKey
  | commentAfterValue
deriving DecidableEq

/-- `TokenType` of src/tokenizer.ts: KEY, VALUE, NEST. -/
inductive TokenType where
  | key
  | value
  | nest
deriving DecidableEq

/-- `NestDirection`: START = '\x7b', END = '\x7d'. -/
inductive NestDirection where
  | nestStart
  | nestEnd
deriving DecidableEq

/-- `TokenResponse = { tokenType; value }` of src/tokenizer.ts. -/
structure TokenResponse where
  tokenType : TokenType
  value : Str
deriving DecidableEq

/-- The error classes of src/tokenizer.ts (positions and the `near` debug
window are diagnostic payload and are dropped). -/
inductive TokenizerError where
  | tooManyBrackets
  | openBracketAfterValue
  | closeBracketAfterKey
  | noCharacterToEscape
  | unsupportedEscapeSequence (sequence : Str)
  | escapeOutsideQuote
deriving DecidableEq

/-- `TokenizerOption` (verbose / debugBufferSize omitted: diagnostics only). -/
structure TokenizerOption where
  disableEscape : Bool := false
deriving DecidableEq

/-- Character constants of src/tokenizer.ts. -/
def ESCAPE : Char := '\\'

def QUOTE : Char := '"'

def WHITE_SPACE : Char := ' '

def TAB_SPACE : Char := '\t'

def BOM : Char := Char.ofNat 65279

def NEW_LINE_CHAR : Char := '\n'

def CARRIAGE_RETURN_CHAR : Char := '\r'

def BRACKET_OPEN : Char := '{'

def BRACKET_CLOSE : Char := '}'

/-- `COMMENT_START[0]`, the first character of the two-character marker. -/
def COMMENT_START_FIRST : Char := '/'

def ESCAPE_SEQUENCES__KEEP_SLASH : List Str := [['\\', 'n'], ['\\', 't']]

def ESCAPE_SEQUENCES__NO_SLASH : List Str := [['\\', '\\'], ['\\', '"']]

/-- The mutable fields of the `Tokenizer` class of src/tokenizer.ts
(the `debugBuffer` is diagnostics only and dropped). -/
structure Tokenizer where
  state : TokenizerState := .afterValue
  nestedLevel : Int := 0
  previousChar : Option Char := none
  currentLineNumber : Nat := 0
  currentPosition : Nat := 0
  tokenParts : Str := []
deriving DecidableEq

/-- `emitToken`: snapshot the joined `tokenParts` as a token and clear them. -/
def emitToken (t : Tokenizer) (tokenType : TokenType) : Tokenizer × TokenResponse :=
  ({ t with tokenParts := [] }, { tokenType := tokenType, value := t.tokenParts })

/-- `emitNest`: START increments `nestedLevel`; END decrements it and fails
with `TooManyBrackets` when the counter would become negative. -/
def emitNest (t : Tokenizer) (nestDirection : NestDirection) :
    Except TokenizerError (Tokenizer × TokenResponse) :=
  match nestDirection with
  | .nestStart =>
      .ok ({ t with nestedLevel := t.nestedLevel + 1 },
           { tokenType := .nest, value := ['{'] })
  | .nestEnd =>
      let lvl := t.nestedLevel - 1
      if lvl < 0 then
        .error .tooManyBrackets
      else
        .ok ({ t with nestedLevel := lvl },
             { tokenType := .nest, value := ['}'] })

/-- `handleNewLine` of src/tokenizer.ts. -/
def handleNewLine (t : Tokenizer) (char : Char) : Tokenizer × List TokenResponse :=
  let (t1, toks) :=
    match t.state with
    | .inKeyWithQuote => ({ t with tokenParts := t.tokenParts ++ [char] }, [])
    | .inValueWithQuote => ({ t with tokenParts := t.tokenParts ++ [char] }, [])
    | .inKeyWithoutQuote =>
        let (t2, tok) := emitToken t .key
        ({ t2 with state := .afterKey }, [tok])
    | .inValueWithoutQuote =>
        let (t2, tok) := emitToken t .value
        ({ t2 with state := .afterValue }, [tok])
    | .afterKey => (t, [])
    | .afterValue => (t, [])
    | .commentAfterKey => ({ t with state := .afterKey }, [])
    | .commentAfterValue => ({ t with state := .afterValue }, [])
  ({ t1 with currentLineNumber := t1.currentLineNumber + 1, currentPosition := 0 }, toks)

/-- `handleWhitespace` of src/tokenizer.ts. -/
def handleWhitespace (t : Tokenizer) (char : Char) : Tokenizer × List TokenResponse :=
  let (t1, toks) :=
    match t.state with
    | .inKeyWithQuote => ({ t with tokenParts := t.tokenParts ++ [char] }, [])
    | .inValueWithQuote => ({ t with tokenParts := t.tokenParts ++ [char] }, [])
    | .inKeyWithoutQuote =>
        let (t2, tok) := emitToken t .key
        ({ t2 with state := .afterKey }, [tok])
    | .inValueWithoutQuote =>
        let (t2, tok) := emitToken t .value
        ({ t2 with state := .afterValue }, [tok])
    | .afterKey => (t, [])
    | .afterValue => (t, [])
    | .commentAfterKey => (t, [])
    | .commentAfterValue => (t, [])
  ({ t1 with currentPosition := t1.currentPosition + 1 }, toks)

/-- `handleQuote` of src/tokenizer.ts. -/
def handleQuote (t : Tokenizer) : Tokenizer × List TokenResponse :=
  let (t1, toks) :=
    match t.state with
    | .inKeyWithQuote =>
        let (t2, tok) := emitToken t .key
        ({ t2 with state := .afterKey }, [tok])
    | .inValueWithQuote =>
        let (t2, tok) := emitToken t .value
        ({ t2 with state := .afterValue }, [tok])
    | .inKeyWithoutQuote =>
        let (t2, tok) := emitToken t .key
        ({ t2 with state := .afterKey }, [tok])
    | .inValueWithoutQuote =>
        let (t2, tok) := emitToken t .value
        ({ t2 with state := .afterValue }, [tok])
    | .afterKey => ({ t with state := .inValueWithQuote }, [])
    | .afterValue => ({ t with state := .inKeyWithQuote }, [])
    | .commentAfterKey => (t, [])
    | .commentAfterValue => (t, [])
  ({ t1 with currentPosition := t1.currentPosition + 1 }, toks)

/-- `handleBracketOpen` of src/tokenizer.ts. -/
def handleBracketOpen (t : Tokenizer) (char : Char) :
    Except TokenizerError (Tokenizer × List TokenResponse) :=
  let stepped : Except TokenizerError (Tokenizer × List TokenResponse) :=
    match t.state with
    | .inKeyWithQuote =>
        .ok ({ t with tokenParts := t.tokenParts ++ [char] }, [])
    | .inValueWithQuote =>
        .ok ({ t with tokenParts := t.tokenParts ++ [char] }, [])
    | .inKeyWithoutQuote =>
        let (t2, tok) := emitToken t .key
        match emitNest t2 .nestStart with
        | .error e => .error e
        | .ok (t3, nestTok) => .ok ({ t3 with state := .afterValue }, [tok, nestTok])
    | .inValueWithoutQuote => .error .openBracketAfterValue
    | .afterKey =>
        match emitNest t .nestStart with
        | .error e => .error e
        | .ok (t2, nestTok) => .ok ({ t2 with state := .afterValue }, [nestTok])
    | .afterValue => .error .openBracketAfterValue
    | .commentAfterKey => .ok (t, [])
    | .commentAfterValue => .ok (t, [])
  match stepped with
  | .error e => .error e
  | .ok (t1, toks) => .ok ({ t1 with currentPosition := t1.currentPosition + 1 }, toks)

/-- `handleBracketClose` of src/tokenizer.ts. -/
def handleBracketClose (t : Tokenizer) (char : Char) :
    Except TokenizerError (Tokenizer × List TokenResponse) :=
  let stepped : Except TokenizerError (Tokenizer × List TokenResponse) :=
    match t.state with
    | .inKeyWithQuote =>
        .ok ({ t with tokenParts := t.tokenParts ++ [char] }, [])
    | .inValueWithQuote =>
        .ok ({ t with tokenParts := t.tokenParts ++ [char] }, [])
    | .inKeyWithoutQuote => .error .closeBracketAfterKey
    | .inValueWithoutQuote =>
        let (t2, tok) := emitToken t .value
        match emitNest t2 .nestEnd with
        | .error e => .error e
        | .ok (t3, nestTok) => .ok ({ t3 with state := .afterValue }, [tok, nestTok])
    | .afterKey => .error .closeBracketAfterKey
    | .afterValue =>
        match emitNest t .nestEnd with
        | .error e => .error e
        | .ok (t2, nestTok) => .ok (t2, [nestTok])
    | .commentAfterKey => .ok (t, [])
    | .commentAfterValue => .ok (t, [])
  match stepped with
  | .error e => .error e
  | .ok (t1, toks) => .ok ({ t1 with currentPosition := t1.currentPosition + 1 }, toks)

/-- `handleNormalCharacter` of src/tokenizer.ts. -/
def handleNormalCharacter (t : Tokenizer) (char : Char) : Tokenizer :=
  let t1 :=
    match t.state with
    | .inKeyWithQuote => { t with tokenParts := t.tokenParts ++ [char] }
    | .inValueWithQuote => { t with tokenParts := t.tokenParts ++ [char] }
    | .inKeyWithoutQuote => { t with tokenParts := t.tokenParts ++ [char] }
    | .inValueWithoutQuote => { t with tokenParts := t.tokenParts ++ [char] }
    | .afterKey =>
        { t with tokenParts := t.tokenParts ++ [char], state := .inValueWithoutQuote }
    | .afterValue =>
        { t with tokenParts := t.tokenParts ++ [char], state := .inKeyWithoutQuote }
    | .commentAfterKey => t
    | .commentAfterValue => t
  { t1 with currentPosition := t1.currentPosition + 1 }

/-- `handleEscape` of src/tokenizer.ts: in comment states the character is
ignored; with no lookahead `NoCharacterToEscape` is raised; an unrecognized
two-character sequence is handled as two normal characters; a recognized one
pushes either the full two-character sequence (KEEP_SLASH) or just the escaped
character (NO_SLASH), and raises `EscapeOutsideQuote` outside quoted states. -/
def handleEscape (t : Tokenizer) (char1 : Char) (char2 : Option Char) :
    Except TokenizerError Tokenizer :=
  if t.state = .commentAfterKey ∨ t.state = .commentAfterValue then
    .ok { t with currentPosition := t.currentPosition + 1 }
  else
    match char2 with
    | none => .error .noCharacterToEscape
    | some c2 =>
      let charWithLookAhead : Str := [char1, c2]
      let keepSlash : Bool := decide (charWithLookAhead ∈ ESCAPE_SEQUENCES__KEEP_SLASH)
      let removeSlash : Bool := decide (charWithLookAhead ∈ ESCAPE_SEQUENCES__NO_SLASH)
      if keepSlash = removeSlash then
        -- unsupported escape sequence: handled like normal characters
        let t1 := handleNormalCharacter (handleNormalCharacter t char1) c2
        .ok { t1 with currentPosition := t1.currentPosition + 2 }
      else
        let charToPush : Str := if keepSlash then charWithLookAhead else [c2]
        match t.state with
        | .inKeyWithQuote =>
            .ok { t with tokenParts := t.tokenParts ++ charToPush,
                         currentPosition := t.currentPosition + 2 }
        | .inValueWithQuote =>
            .ok { t with tokenParts := t.tokenParts ++ charToPush,
                         currentPosition := t.currentPosition + 2 }
        | .inKeyWithoutQuote => .error .escapeOutsideQuote
        | .inValueWithoutQuote => .error .escapeOutsideQuote
        | .afterKey => .error .escapeOutsideQuote
        | .afterValue => .error .escapeOutsideQuote
        -- comment states already returned above; arms kept for totality
        | .commentAfterKey => .ok { t with currentPosition := t.currentPosition + 1 }
        | .commentAfterValue => .ok { t with currentPosition := t.currentPosition + 1 }

/-- `handleComment` of src/tokenizer.ts: note that the quoted states also
switch to a comment state, emitting the in-progress lexeme first. -/
def handleComment (t : Tokenizer) : Tokenizer × List TokenResponse :=
  let (t1, toks) :=
    match t.state with
    | .inKeyWithQuote =>
        let (t2, tok) := emitToken t .key
        ({ t2 with state := .commentAfterKey }, [tok])
    | .inValueWithQuote =>
        let (t2, tok) := emitToken t .value
        ({ t2 with state := .commentAfterValue }, [tok])
    | .inKeyWithoutQuote =>
        let (t2, tok) := emitToken t .key
        ({ t2 with state := .commentAfterKey }, [tok])
    | .inValueWithoutQuote =>
        let (t2, tok) := emitToken t .value
        ({ t2 with state := .commentAfterValue }, [tok])
    | .afterKey => ({ t with state := .commentAfterKey }, [])
    | .afterValue => ({ t with state := .commentAfterValue }, [])
    | .commentAfterKey => (t, [])
    | .commentAfterValue => (t, [])
  ({ t1 with currentPosition := t1.currentPosition + 1 }, toks)

/-- `parseWindow` of src/tokenizer.ts: dispatch on the first character of the
two-character window. The escape and comment branches set `previousChar` to
`none`, signalling that both characters of the window were consumed. -/
def parseWindow (o : TokenizerOption) (t : Tokenizer) (char1 : Char) (char2 : Option Char) :
    Except TokenizerError (Tokenizer × List TokenResponse) :=
  if char1 = CARRIAGE_RETURN_CHAR ∨ char1 = BOM then
    .ok (t, [])
  else if char1 = NEW_LINE_CHAR then
    .ok (handleNewLine t char1)
  else if char1 = WHITE_SPACE ∨ char1 = TAB_SPACE then
    .ok (handleWhitespace t char1)
  else if char1 = QUOTE then
    .ok (handleQuote t)
  else if char1 = BRACKET_OPEN then
    handleBracketOpen t char1
  else if char1 = BRACKET_CLOSE then
    handleBracketClose t char1
  else if char1 = ESCAPE then
    if o.disableEscape then
      .ok (handleNormalCharacter t char1, [])
    else
      match handleEscape t char1 char2 with
      | .error e => .error e
      | .ok t1 => .ok ({ t1 with previousChar := none }, [])
  else if char1 = COMMENT_START_FIRST then
    if char2 = some COMMENT_START_FIRST then
      let (t1, toks) := handleComment t
      .ok ({ t1 with previousChar := none }, toks)
    else
      .ok (handleNormalCharacter t char1, [])
  else
    .ok (handleNormalCharacter t char1, [])

/-- `ingestChar` of src/tokenizer.ts: the first character after construction
(or after a consumed two-character pattern) is only buffered; otherwise the
buffered character is parsed with the new one as lookahead. -/
def ingestChar (o : TokenizerOption) (t : Tokenizer) (char : Char) :
    Except TokenizerError (Tokenizer × List TokenResponse) :=
  match t.previousChar with
  | none => .ok ({ t with previousChar := some char }, [])
  | some prev =>
      match parseWindow o t prev (some char) with
      | .error e => .error e
      | .ok (t1, toks) =>
          let t2 :=
            if t1.previousChar.isSome then { t1 with previousChar := some char } else t1
          .ok (t2, toks)

/-- `flush` of src/tokenizer.ts: parse the pending character with no
lookahead, then ingest a synthetic newline. -/
def flush (o : TokenizerOption) (t : Tokenizer) :
    Except TokenizerError (Tokenizer × List TokenResponse) :=
  let pending : Except TokenizerError (Tokenizer × List TokenResponse) :=
    match t.previousChar with
    | some prev =>
        match parseWindow o t prev none with
        | .error e => .error e
        | .ok (ta, tk) => .ok ({ ta with previousChar := none }, tk)
    | none => .ok (t, [])
  match pending with
  | .error e => .error e
  | .ok (t1, toks1) =>
      match ingestChar o t1 NEW_LINE_CHAR with
      | .error e => .error e
      | .ok (t2, toks2) => .ok (t2, toks1 ++ toks2)

/-- Ingest every character of a string once, in order. -/
def ingestString (o : TokenizerOption) (t : Tokenizer) :
    Str → Except TokenizerError (Tokenizer × List TokenResponse)
  | [] => .ok (t, [])
  | c :: cs => do
      let (t1, toks1) ← ingestChar o t c
      let (t2, toks2) ← ingestString o t1 cs
      .ok (t2, toks1 ++ toks2)

/-- The protocol of the spec: ingest each input character exactly once via
`ingestChar`, then call `flush` exactly once. -/
def tokenize (o : TokenizerOption) (input : Str) :
    Except TokenizerError (Tokenizer × List TokenResponse) := do
  let (t1, toks1) ← ingestString o {} input
  let (t2, toks2) ← flush o t1
  .ok (t2, toks1 ++ toks2)

/-- The token sequence produced by `tokenize`. -/
def tokenizeTokens (o : TokenizerOption) (input : Str) :
    Except TokenizerError (List TokenResponse) :=
  (tokenize o input).map (·.2)

end Tokenizer

namespace CtlTokenizer

/-- `TokenizerState` of the tokenizer revision that provides the
`TokenResponse`/`ControlResponse` interface imported by src/parser.ts. -/
inductive TokenizerState where
  | inKeyWithQuote
  | inValueWithQuote
  | inKeyWithoutQuote
  | inValueWithoutQuote
  | afterKey
  | afterValue
  | commentAfterKey
  | commentAfterValue
deriving DecidableEq

/-- `TokenType` of that revision: KEY, VALUE. -/
inductive TokenType where
  | key
  | value
deriving DecidableEq

/-- `ControlType`: START_NESTED, END_NESTED. -/
inductive ControlType where
  | startNested
  | endNested
deriving DecidableEq

/-- The union `TokenResponse | ControlResponse` yielded by that revision:
`{ tokenType; token }` or `{ controlType }`. -/
inductive Response where
  | token (tokenType : TokenType) (token : Str)
  | control (controlType : ControlType)
deriving DecidableEq

/-- `TokenizerOption = { escape: boolean }` of that revision; src/parser.ts
passes its own options object through, so a missing `escape` is falsy. -/
structure TokenizerOption where
  escape : Bool := false
deriving DecidableEq

def ESCAPE : Char := '\\'

def QUOTE : Char := '"'

def WHITE_SPACE_CHARS : List Char := [' ', '\t']

def NEW_LINE_CHARS : List Char := ['\r', '\n']

def BRACKET_OPEN : Char := '{'

def BRACKET_CLOSE : Char := '}'

def ESCAPE_SEQUENCES__KEEP_SLASH : List Str := [['\\', 'n'], ['\\', 't']]

def ESCAPE_SEQUENCES__NO_SLASH : List Str := [['\\', '\\'], ['\\', '"']]

/-- The mutable fields of that tokenizer revision. -/
structure Tokenizer where
  state : TokenizerState := .afterValue
  tokenParts : Str := []
  nestedLevel : Int := 0
  buffer : Option Char := none
deriving DecidableEq

/-- `emitToken` of that revision. -/
def emitToken (t : Tokenizer) (tokenType : TokenType) : Tokenizer × Response :=
  ({ t with tokenParts := [] }, .token tokenType t.tokenParts)

/-- `emitControl` of that revision. -/
def emitControl (t : Tokenizer) (controlType : ControlType) :
    Except Tokenizer.TokenizerError (Tokenizer × Response) :=
  match controlType with
  | .startNested =>
      .ok ({ t with nestedLevel := t.nestedLevel + 1 }, .control .startNested)
  | .endNested =>
      let lvl := t.nestedLevel - 1
      if lvl < 0 then
        .error .tooManyBrackets
      else
        .ok ({ t with nestedLevel := lvl }, .control .endNested)

/-- `handleNewLine` of that revision: quoted lexemes are terminated by a
newline (they are emitted, not continued). -/
def handleNewLine (t : Tokenizer) : Tokenizer × List Response :=
  match t.state with
  | .inKeyWithQuote =>
      let (t2, tok) := emitToken t .key
      ({ t2 with state := .afterKey }, [tok])
  | .inValueWithQuote =>
      let (t2, tok) := emitToken t .value
      ({ t2 with state := .afterValue }, [tok])
  | .inKeyWithoutQuote =>
      let (t2, tok) := emitToken t .key
      ({ t2 with state := .afterKey }, [tok])
  | .inValueWithoutQuote =>
      let (t2, tok) := emitToken t .value
      ({ t2 with state := .afterValue }, [tok])
  | .afterKey => (t, [])
  | .afterValue => (t, [])
  | .commentAfterKey => ({ t with state := .afterKey }, [])
  | .commentAfterValue => ({ t with state := .afterValue }, [])

/-- `handleWhitespace` of that revision. -/
def handleWhitespace (t : Tokenizer) (char : Char) : Tokenizer × List Response :=
  match t.state with
  | .inKeyWithQuote => ({ t with tokenParts := t.tokenParts ++ [char] }, [])
  | .inValueWithQuote => ({ t with tokenParts := t.tokenParts ++ [char] }, [])
  | .inKeyWithoutQuote =>
      let (t2, tok) := emitToken t .key
      ({ t2 with state := .afterKey }, [tok])
  | .inValueWithoutQuote =>
      let (t2, tok) := emitToken t .value
      ({ t2 with state := .afterValue }, [tok])
  | .afterKey => (t, [])
  | .afterValue => (t, [])
  | .commentAfterKey => (t, [])
  | .commentAfterValue => (t, [])

/-- `handleQuote` of that revision. -/
def handleQuote (t : Tokenizer) : Tokenizer × List Response :=
  match t.state with
  | .inKeyWithQuote =>
      let (t2, tok) := emitToken t .key
      ({ t2 with state := .afterKey }, [tok])
  | .inValueWithQuote =>
      let (t2, tok) := emitToken t .value
      ({ t2 with state := .afterValue }, [tok])
  | .inKeyWithoutQuote =>
      let (t2, tok) := emitToken t .key
      ({ t2 with state := .afterKey }, [tok])
  | .inValueWithoutQuote =>
      let (t2, tok) := emitToken t .value
      ({ t2 with state := .afterValue }, [tok])
  | .afterKey => ({ t with state := .inValueWithQuote }, [])
  | .afterValue => ({ t with state := .inKeyWithQuote }, [])
  | .commentAfterKey => (t, [])
  | .commentAfterValue => (t, [])

/-- `handleBracketOpen` of that revision. -/
def handleBracketOpen (t : Tokenizer) (char : Char) :
    Except Tokenizer.TokenizerError (Tokenizer × List Response) :=
  match t.state with
  | .inKeyWithQuote => .ok ({ t with tokenParts := t.tokenParts ++ [char] }, [])
  | .inValueWithQuote => .ok ({ t with tokenParts := t.tokenParts ++ [char] }, [])
  | .inKeyWithoutQuote => do
      let (t2, tok) := emitToken t .key
      let (t3, ctl) ← emitControl t2 .startNested
      .ok ({ t3 with state := .afterValue }, [tok, ctl])
  | .inValueWithoutQuote => .error .openBracketAfterValue
  | .afterKey => do
      let (t2, ctl) ← emitControl t .startNested
      .ok ({ t2 with state := .afterValue }, [ctl])
  | .afterValue => .error .openBracketAfterValue
  | .commentAfterKey => .ok (t, [])
  | .commentAfterValue => .ok (t, [])

/-- `handleBracketClose` of that revision. -/
def handleBracketClose (t : Tokenizer) (char : Char) :
    Except Tokenizer.TokenizerError (Tokenizer × List Response) :=
  match t.state with
  | .inKeyWithQuote => .ok ({ t with tokenParts := t.tokenParts ++ [char] }, [])
  | .inValueWithQuote => .ok ({ t with tokenParts := t.tokenParts ++ [char] }, [])
  | .inKeyWithoutQuote => .error .closeBracketAfterKey
  | .inValueWithoutQuote => do
      let (t2, tok) := emitToken t .value
      let (t3, ctl) ← emitControl t2 .endNested
      .ok ({ t3 with state := .afterValue }, [tok, ctl])
  | .afterKey => .error .closeBracketAfterKey
  | .afterValue => do
      let (t2, ctl) ← emitControl t .endNested
      .ok (t2, [ctl])
  | .commentAfterKey => .ok (t, [])
  | .commentAfterValue => .ok (t, [])

/-- `handleEscape` of that revision: an unrecognized two-character escape
raises `UnsupportedEscapeSequence`. -/
def handleEscape (t : Tokenizer) (char : Char) (lookAhead : Option Char) :
    Except Tokenizer.TokenizerError Tokenizer :=
  if t.state = .commentAfterKey ∨ t.state = .commentAfterValue then
    .ok t
  else
    match lookAhead with
    | none => .error .noCharacterToEscape
    | some la =>
      let charWithLookAhead : Str := [char, la]
      let keepSlash : Bool := decide (charWithLookAhead ∈ ESCAPE_SEQUENCES__KEEP_SLASH)
      let removeSlash : Bool := decide (charWithLookAhead ∈ ESCAPE_SEQUENCES__NO_SLASH)
      if keepSlash = removeSlash then
        .error (.unsupportedEscapeSequence charWithLookAhead)
      else
        let charToPush : Str := if keepSlash then charWithLookAhead else [la]
        match t.state with
        | .inKeyWithQuote => .ok { t with tokenParts := t.tokenParts ++ charToPush }
        | .inValueWithQuote => .ok { t with tokenParts := t.tokenParts ++ charToPush }
        | .inKeyWithoutQuote => .error .escapeOutsideQuote
        | .inValueWithoutQuote => .error .escapeOutsideQuote
        | .afterKey => .error .escapeOutsideQuote
        | .afterValue => .error .escapeOutsideQuote
        -- comment states already returned above; arms kept for totality
        | .commentAfterKey => .ok t
        | .commentAfterValue => .ok t

/-- `handleNormalCharacter` of that revision. -/
def handleNormalCharacter (t : Tokenizer) (char : Char) : Tokenizer :=
  match t.state with
  | .inKeyWithQuote => { t with tokenParts := t.tokenParts ++ [char] }
  | .inValueWithQuote => { t with tokenParts := t.tokenParts ++ [char] }
  | .inKeyWithoutQuote => { t with tokenParts := t.tokenParts ++ [char] }
  | .inValueWithoutQuote => { t with tokenParts := t.tokenParts ++ [char] }
  | .afterKey =>
      { t with tokenParts := t.tokenParts ++ [char], state := .inValueWithoutQuote }
  | .afterValue =>
      { t with tokenParts := t.tokenParts ++ [char], state := .inKeyWithoutQuote }
  | .commentAfterKey => t
  | .commentAfterValue => t

/-- `handleComment` of that revision (identical structure to the other one,
the quoted states also switch to a comment state). -/
def handleComment (t : Tokenizer) : Tokenizer × List Response :=
  match t.state with
  | .inKeyWithQuote =>
      let (t2, tok) := emitToken t .key
      ({ t2 with state := .commentAfterKey }, [tok])
  | .inValueWithQuote =>
      let (t2, tok) := emitToken t .value
      ({ t2 with state := .commentAfterValue }, [tok])
  | .inKeyWithoutQuote =>
      let (t2, tok) := emitToken t .key
      ({ t2 with state := .commentAfterKey }, [tok])
  | .inValueWithoutQuote =>
      let (t2, tok) := emitToken t .value
      ({ t2 with state := .commentAfterValue }, [tok])
  | .afterKey => ({ t with state := .commentAfterKey }, [])
  | .afterValue => ({ t with state := .commentAfterValue }, [])
  | .commentAfterKey => (t, [])
  | .commentAfterValue => (t, [])

/-- `parseCharacter` of that revision: an if/else chain, with the comment
check (`char` + `lookahead` equals the two-character marker) after the escape
check and before the normal-character fallback. -/
def parseCharacter (o : TokenizerOption) (t : Tokenizer) (char : Char)
    (lookahead : Option Char) :
    Except Tokenizer.TokenizerError (Tokenizer × List Response) :=
  if char ∈ NEW_LINE_CHARS then
    .ok (handleNewLine t)
  else if char ∈ WHITE_SPACE_CHARS then
    .ok (handleWhitespace t char)
  else if char = QUOTE then
    .ok (handleQuote t)
  else if char = BRACKET_OPEN then
    handleBracketOpen t char
  else if char = BRACKET_CLOSE then
    handleBracketClose t char
  else if char = ESCAPE then
    if o.escape then do
      let t1 ← handleEscape t char lookahead
      .ok ({ t1 with buffer := none }, [])
    else
      .ok (handleNormalCharacter t char, [])
  else if char = '/' ∧ lookahead = some '/' then
    .ok (handleComment t)
  else
    .ok (handleNormalCharacter t char, [])

/-- The single-character ingestion entry point of that revision (the one
src/parser.ts drives): buffer the first character, then parse the buffered
character with the new one as lookahead. -/
def ingestChar (o : TokenizerOption) (t : Tokenizer) (char : Char) :
    Except Tokenizer.TokenizerError (Tokenizer × List Response) :=
  match t.buffer with
  | none => .ok ({ t with buffer := some char }, [])
  | some b => do
      let (t1, rs) ← parseCharacter o t b (some char)
      let t2 := if t1.buffer.isSome then { t1 with buffer := some char } else t1
      .ok (t2, rs)

/-- `flush` of that revision: ingest a newline FIRST, then parse the pending
buffered character with no lookahead. -/
def flush (o : TokenizerOption) (t : Tokenizer) :
    Except Tokenizer.TokenizerError (Tokenizer × List Response) := do
  let (t1, rs1) ← ingestChar o t '\n'
  match t1.buffer with
  | some b => do
      let (t2, rs2) ← parseCharacter o t1 b none
      .ok ({ t2 with buffer := none }, rs1 ++ rs2)
  | none => .ok (t1, rs1)

end CtlTokenizer

namespace VdfParser

/-- The recursive value type of `VdfKeyValueMap`: a key maps to a string or to
a nested map. A JS object is modelled as an insertion-ordered association
list. -/
inductive VdfValue where
  | str (s : Str)
  | map (entries : List (Str × VdfValue))

/-- A `VdfKeyValueMap`: insertion-ordered entries of a JS object. -/
abbrev VdfKeyValueMap := List (Str × VdfValue)

/-- `VdfParserOptions` of src/parser.ts: `escape` is forwarded to the
tokenizer, `useLatestValue` selects the duplicate-key policy; both are falsy
by default. -/
structure VdfParserOptions where
  escape : Bool := false
  useLatestValue : Bool := false
deriving DecidableEq

/-- `VdfParserError` of src/parser.ts. The only reachable throw in this model
is the empty-key check of `buildKvMap` (the one-character ingestion check is
unrepresentable with `Char` input). -/
inductive VdfParserError where
  | emptyKeyEncountered
deriving DecidableEq

/-- An error surfacing from `parseText`: a tokenizer error or a parser
error. -/
inductive ParseError where
  | tokenizerError (e : Tokenizer.TokenizerError)
  | parserError (e : VdfParserError)
deriving DecidableEq

/-- JS object read `traversed[key]`: the entry of the first matching key. -/
def mapLookup (m : VdfKeyValueMap) (k : Str) : Option VdfValue :=
  match m with
  | [] => none
  | (k1, v) :: rest => if k1 = k then some v else mapLookup rest k

/-- JS object write `traversed[key] = v`: replace in place when the key
exists, otherwise append (insertion order preserved). -/
def mapSet (m : VdfKeyValueMap) (k : Str) (v : VdfValue) : VdfKeyValueMap :=
  match m with
  | [] => [(k, v)]
  | (k1, v1) :: rest => if k1 = k then (k1, v) :: rest else (k1, v1) :: mapSet rest k v

/-- JS `string.split('.')` for a single-character separator. -/
def splitOnDotAux : Str → Str → List Str
  | [], acc => [acc]
  | c :: rest, acc =>
      if c = '.' then acc :: splitOnDotAux rest [] else splitOnDotAux rest (acc ++ [c])

/-- `pair.key.split('.')` of `buildKvMap`. -/
def splitOnDot (s : Str) : List Str :=
  splitOnDotAux s []

/-- JS `array.join('.')` used on the key stack when a VALUE token arrives. -/
def joinDot : List Str → Str
  | [] => []
  | [s] => s
  | s :: rest => s ++ '.' :: joinDot rest

/-- The final-segment write of `buildKvMap`:
`if (traversed[lastKey] === undefined || useLatestValue) traversed[lastKey] = value`. -/
def setFinal (useLatestValue : Bool) (m : VdfKeyValueMap) (lastKey : Str) (value : Str) :
    VdfKeyValueMap :=
  if (mapLookup m lastKey).isNone || useLatestValue then
    mapSet m lastKey (.str value)
  else
    m

/-- The `while ((key = keys.shift()))` traversal of `buildKvMap`, rebuilt
functionally: walk/create intermediate submaps; a falsy (empty) segment exits
the loop; hitting a string under earliest-wins abandons the pair; under
latest-wins the string is replaced by a fresh submap. -/
def buildInto (useLatestValue : Bool) (m : VdfKeyValueMap) :
    List Str → Str → Str → VdfKeyValueMap
  | [], lastKey, value => setFinal useLatestValue m lastKey value
  | k :: rest, lastKey, value =>
      if k = [] then
        -- the while condition is falsy on an empty-string segment: loop exits
        setFinal useLatestValue m lastKey value
      else
        match mapLookup m k with
        | none => mapSet m k (.map (buildInto useLatestValue [] rest lastKey value))
        | some (.str _) =>
            if useLatestValue then
              mapSet m k (.map (buildInto useLatestValue [] rest lastKey value))
            else
              m
        | some (.map sub) => mapSet m k (.map (buildInto useLatestValue sub rest lastKey value))

/-- `buildKvMap` of src/parser.ts: split the joined key path on '.', pop the
last segment (throwing `Empty key encountered` when it is missing or the
empty string), then fold the pair into the map under the duplicate-key
policy. -/
def buildKvMap (useLatestValue : Bool) (result : VdfKeyValueMap) (pair : Str × Str) :
    Except VdfParserError VdfKeyValueMap :=
  let keys := splitOnDot pair.1
  match keys.getLast? with
  | none => .error .emptyKeyEncountered
  | some lastKey =>
      if lastKey = [] then
        .error .emptyKeyEncountered
      else
        .ok (buildInto useLatestValue result keys.dropLast lastKey pair.2)

/-- `parseTokenResponse` of src/parser.ts: KEY pushes onto the key stack;
VALUE yields a pair whose key is the stack joined with '.', then pops;
START_NESTED is a no-op; END_NESTED pops. Returns the new stack and the
emitted pairs. -/
def parseTokenResponse (keyStack : List Str) (response : CtlTokenizer.Response) :
    List Str × List (Str × Str) :=
  match response with
  | .token .key s => (keyStack ++ [s], [])
  | .token .value s => (keyStack.dropLast, [(joinDot keyStack, s)])
  | .control .startNested => (keyStack, [])
  | .control .endNested => (keyStack.dropLast, [])

/-- The mutable fields of the `VdfParser` class of src/parser.ts. -/
structure ParserState where
  result : VdfKeyValueMap := []
  keyStack : List Str := []
  tokenizer : CtlTokenizer.Tokenizer := {}

/-- Fold a list of emitted pairs into the result via `buildKvMap`. -/
def feedPairs (o : VdfParserOptions) (st : ParserState) :
    List (Str × Str) → Except ParseError ParserState
  | [] => .ok st
  | p :: rest =>
      match buildKvMap o.useLatestValue st.result p with
      | .error e => .error (.parserError e)
      | .ok m => feedPairs o { st with result := m } rest

/-- Feed a list of tokenizer responses through `parseTokenResponse` and
`buildKvMap`. -/
def feedResponses (o : VdfParserOptions) (st : ParserState) :
    List CtlTokenizer.Response → Except ParseError ParserState
  | [] => .ok st
  | r :: rest => do
      let (stack1, pairs) := parseTokenResponse st.keyStack r
      let st1 ← feedPairs o { st with keyStack := stack1 } pairs
      feedResponses o st1 rest

/-- `ingestChar` of src/parser.ts: drive the tokenizer one character and fold
every emitted pair into the result map. -/
def ingestChar (o : VdfParserOptions) (st : ParserState) (char : Char) :
    Except ParseError ParserState :=
  match CtlTokenizer.ingestChar { escape := o.escape } st.tokenizer char with
  | .error e => .error (.tokenizerError e)
  | .ok (tk, rs) => feedResponses o { st with tokenizer := tk } rs

/-- Ingest a list of characters one at a time. -/
def ingestChars (o : VdfParserOptions) (st : ParserState) :
    Str → Except ParseError ParserState
  | [] => .ok st
  | c :: cs => do
      let st1 ← ingestChar o st c
      ingestChars o st1 cs

/-- `ingestText` of src/parser.ts: ingest every character of the text, then
ingest one extra newline. -/
def ingestText (o : VdfParserOptions) (st : ParserState) (text : Str) :
    Except ParseError ParserState := do
  let st1 ← ingestChars o st text
  ingestChar o st1 '\n'

/-- `flush` of src/parser.ts: drain the tokenizer and fold the remaining
pairs. -/
def flush (o : VdfParserOptions) (st : ParserState) : Except ParseError ParserState :=
  match CtlTokenizer.flush { escape := o.escape } st.tokenizer with
  | .error e => .error (.tokenizerError e)
  | .ok (tk, rs) => feedResponses o { st with tokenizer := tk } rs

/-- `parseText` of src/parser.ts: `ingestText` then `flush`, returning the
result map. -/
def parseText (o : VdfParserOptions) (text : Str) : Except ParseError VdfKeyValueMap := do
  let st1 ← ingestText o {} text
  let st2 ← flush o st1
  .ok st2.result

/-- The chunk loop of `parseStream` of src/parser.ts: `ingestText` once per
received chunk (each appending a synthetic newline), then one `flush`. -/
def ingestChunks (o : VdfParserOptions) (st : ParserState) :
    List Str → Except ParseError ParserState
  | [] => .ok st
  | chunk :: rest => do
      let st1 ← ingestText o st chunk
      ingestChunks o st1 rest

/-- `parseStream` of src/parser.ts, with the stream replaced by the list of
chunks it delivers. -/
def parseStream (o : VdfParserOptions) (chunks : List Str) :
    Except ParseError VdfKeyValueMap := do
  let st1 ← ingestChunks o {} chunks
  let st2 ← flush o st1
  .ok st2.result

/-- The token sequence the tokenizer produces under the character deliveries
that `parseStream` performs: every character of each chunk, a newline after
each chunk, one flush at the end. -/
def consumeChars (o : CtlTokenizer.TokenizerOption) (t : CtlTokenizer.Tokenizer) :
    Str → Except Tokenizer.TokenizerError (CtlTokenizer.Tokenizer × List CtlTokenizer.Response)
  | [] => .ok (t, [])
  | c :: cs => do
      let (t1, rs1) ← CtlTokenizer.ingestChar o t c
      let (t2, rs2) ← consumeChars o t1 cs
      .ok (t2, rs1 ++ rs2)

/-- Token deliveries of one chunk: its characters then the synthetic
newline appended by `ingestText`. -/
def chunkTokens (o : CtlTokenizer.TokenizerOption) (t : CtlTokenizer.Tokenizer)
    (chunk : Str) :
    Except Tokenizer.TokenizerError (CtlTokenizer.Tokenizer × List CtlTokenizer.Response) := do
  let (t1, rs1) ← consumeChars o t chunk
  let (t2, rs2) ← CtlTokenizer.ingestChar o t1 '\n'
  .ok (t2, rs1 ++ rs2)

/-- Token deliveries of a list of chunks. -/
def chunksTokens (o : CtlTokenizer.TokenizerOption) (t : CtlTokenizer.Tokenizer) :
    List Str → Except Tokenizer.TokenizerError (CtlTokenizer.Tokenizer × List CtlTokenizer.Response)
  | [] => .ok (t, [])
  | chunk :: rest => do
      let (t1, rs1) ← chunkTokens o t chunk
      let (t2, rs2) ← chunksTokens o t1 rest
      .ok (t2, rs1 ++ rs2)

/-- The full token sequence of a `parseStream` run over the given chunks. -/
def streamTokens (o : CtlTokenizer.TokenizerOption) (chunks : List Str) :
    Except Tokenizer.TokenizerError (List CtlTokenizer.Response) := do
  let (t1, rs1) ← chunksTokens o {} chunks
  let (_, rs2) ← CtlTokenizer.flush o t1
  .ok (rs1 ++ rs2)

end VdfParser

section Infrastructure

/-- Decidable equality of `Except` results, for evaluating runs in proofs. -/
instance {e a : Type} [DecidableEq e] [DecidableEq a] : DecidableEq (Except e a) := fun
  | .ok x, .ok y =>
      if h : x = y then .isTrue (by rw [h]) else .isFalse (by simp [h])
  | .error x, .error y =>
      if h : x = y then .isTrue (by rw [h]) else .isFalse (by simp [h])
  | .ok _, .error _ => .isFalse (by simp)
  | .error _, .ok _ => .isFalse (by simp)

end Infrastructure

/-- C1: under the protocol "each input character exactly once through
`ingestChar`, then one `flush`", the quoted input yields
`[Key "a", Value "b"]`, but the unquoted input `a b` yields only `[Key "a"]`:
the trailing unquoted value is never emitted, because `flush` parses the
pending character first and only afterwards feeds its synthetic newline into
an empty lookahead window, where it is merely buffered. The two token
sequences are not identical, contradicting the round-trip property. -/
theorem C1_roundtrip_evaluation :
    Tokenizer.tokenizeTokens {} ['"', 'a', '"', ' ', '"', 'b', '"']
      = .ok [⟨.key, ['a']⟩, ⟨.value, ['b']⟩]
    ∧ Tokenizer.tokenizeTokens {} ['a', ' ', 'b'] = .ok [⟨.key, ['a']⟩]
    ∧ Tokenizer.tokenizeTokens {} ['a', ' ', 'b']
      ≠ Tokenizer.tokenizeTokens {} ['"', 'a', '"', ' ', '"', 'b', '"'] := by
  refine ⟨by decide, by decide, by decide⟩

/-- C2: after ingesting every character of `a b` exactly once, the final
lexeme `b` is still in progress; the single subsequent `flush` emits no token
at all and leaves the pending lexeme `b` buffered (final state still
`InValueUnquoted`), because the synthetic newline of `flush` is ingested into
an empty lookahead window and only buffered, never parsed. -/
theorem C2_flush_leaves_pending_lexeme :
    (Tokenizer.ingestString {} {} ['a', ' ', 'b']).map
        (fun p => (p.1.state, p.1.tokenParts, p.2.map (·.tokenType)))
      = .ok (.afterKey, [], [.key])
    ∧ ((Tokenizer.ingestString {} {} ['a', ' ', 'b']).bind
          (fun p => Tokenizer.flush {} p.1)).map
        (fun p => (p.1.state, p.1.tokenParts, p.2))
      = .ok (.inValueWithoutQuote, ['b'], []) := by
  refine ⟨by decide, by decide⟩

/-- C3 counterexample: tokenizing the quoted key `"a//b"` (each character
once, then flush) emits `Key "a"` — the `//` inside the quoted region starts
a comment, the in-progress lexeme is truncated and emitted, and the tokenizer
ends in the `CommentAfterKey` state, contrary to the claim that quoted
content containing `//` is kept verbatim and no comment state is entered. -/
theorem C3_counterexample_quoted_comment :
    (Tokenizer.tokenize {} ['"', 'a', '/', '/', 'b', '"']).map
        (fun p => (p.1.state, p.2))
      = .ok (.commentAfterKey, [⟨.key, ['a']⟩]) := by
  decide

/-- C4: chunk-boundary divergence of `parseStream`. The same text
`k "a b"` delivered as a single chunk versus as the two chunks
`k "a` and ` b"` produces different token sequences and different parse
results, because `ingestText` appends a synthetic newline after every chunk
and the newline terminates the quoted value mid-token. -/
theorem C4_chunk_boundary_divergence :
    (['k', ' ', '"', 'a'] ++ [' ', 'b', '"'] = ['k', ' ', '"', 'a', ' ', 'b', '"'])
    ∧ VdfParser.streamTokens {} [['k', ' ', '"', 'a', ' ', 'b', '"']]
      = .ok [.token .key ['k'], .token .value ['a', ' ', 'b']]
    ∧ VdfParser.streamTokens {} [['k', ' ', '"', 'a'], [' ', 'b', '"']]
      = .ok [.token .key ['k'], .token .value ['a'], .token .key ['b']]
    ∧ VdfParser.streamTokens {} [['k', ' ', '"', 'a'], [' ', 'b', '"']]
      ≠ VdfParser.streamTokens {} [['k', ' ', '"', 'a', ' ', 'b', '"']]
    ∧ VdfParser.parseStream {} [['k', ' ', '"', 'a', ' ', 'b', '"']]
      = .ok [(['k'], .str ['a', ' ', 'b'])]
    ∧ VdfParser.parseStream {} [['k', ' ', '"', 'a'], [' ', 'b', '"']]
      = .ok [(['k'], .str ['a'])] := by
  refine ⟨by decide, by decide, by decide, by decide, by rfl, by rfl⟩

/-- C6 counterexample: with escapes enabled (the default), ingesting the
escape marker followed by `e` — an unrecognized pair — raises no error at
all: the run of `"a\e"` completes and emits `Key "a\e"`, the two characters
having been handled as normal characters. -/
theorem C6_counterexample_no_error :
    Tokenizer.tokenizeTokens {} ['"', 'a', '\\', 'e', '"']
      = .ok [⟨.key, ['a', '\\', 'e']⟩] := by
  decide

/-- C8: duplicate-key policy of the aggregator on
`"k" { "a" "1" } "k" "2"`. Under the default earliest-wins policy the later
string assignment to `k` is dropped because `k` already holds a submap; with
`useLatestValue` the submap is overwritten by `"2"`. -/
theorem C8_duplicate_key_policies :
    VdfParser.parseText {}
        ['"', 'k', '"', ' ', '{', ' ', '"', 'a', '"', ' ', '"', '1', '"', ' ',
         '}', ' ', '"', 'k', '"', ' ', '"', '2', '"']
      = .ok [(['k'], .map [(['a'], .str ['1'])])]
    ∧ VdfParser.parseText { useLatestValue := true }
        ['"', 'k', '"', ' ', '{', ' ', '"', 'a', '"', ' ', '"', '1', '"', ' ',
         '}', ' ', '"', 'k', '"', ' ', '"', '2', '"']
      = .ok [(['k'], .str ['2'])] := by
  refine ⟨by rfl, by rfl⟩

/-- C9: a key containing a dot is not faithful: parsing `"a.b" "v"` nests the
dot-separated pieces as separate path segments — the result maps `a` to the
submap mapping `b` to `v`, and has no top-level entry for the key `a.b` —
because the parser joins the key stack with '.' and `buildKvMap` re-splits
the joined string on '.'. -/
theorem C9_dotted_key_splits :
    VdfParser.parseText {} ['"', 'a', '.', 'b', '"', ' ', '"', 'v', '"']
      = .ok [(['a'], .map [(['b'], .str ['v'])])]
    ∧ (VdfParser.parseText {} ['"', 'a', '.', 'b', '"', ' ', '"', 'v', '"']).map
        (fun m => (VdfParser.mapLookup m ['a', '.', 'b']).isSome)
      = .ok false := by
  refine ⟨by rfl, by rfl⟩

/-- C10: an empty quoted key is rejected: parsing `"" "v"` throws the
`Empty key encountered` parser error when `buildKvMap` folds the pair whose
popped last segment is the empty string, so no result mapping is produced at
all. -/
theorem C10_empty_key_rejected :
    VdfParser.parseText {} ['"', '"', ' ', '"', 'v', '"']
      = .error (.parserError .emptyKeyEncountered)
    ∧ VdfParser.parseText { useLatestValue := true } ['"', '"', ' ', '"', 'v', '"']
      = .error (.parserError .emptyKeyEncountered) := by
  refine ⟨by rfl, by rfl⟩

namespace Tokenizer

theorem handleNewLine_nestedLevel (t : Tokenizer) (c : Char) :
    (handleNewLine t c).1.nestedLevel = t.nestedLevel := by
  obtain ⟨st, lvl, pc, ln, pos, parts⟩ := t
  cases st <;> rfl

theorem handleWhitespace_nestedLevel (t : Tokenizer) (c : Char) :
    (handleWhitespace t c).1.nestedLevel = t.nestedLevel := by
  obtain ⟨st, lvl, pc, ln, pos, parts⟩ := t
  cases st <;> rfl

theorem handleQuote_nestedLevel (t : Tokenizer) :
    (handleQuote t).1.nestedLevel = t.nestedLevel := by
  obtain ⟨st, lvl, pc, ln, pos, parts⟩ := t
  cases st <;> rfl

theorem handleNormalCharacter_nestedLevel (t : Tokenizer) (c : Char) :
    (handleNormalCharacter t c).nestedLevel = t.nestedLevel := by
  obtain ⟨st, lvl, pc, ln, pos, parts⟩ := t
  cases st <;> rfl

theorem handleComment_nestedLevel (t : Tokenizer) :
    (handleComment t).1.nestedLevel = t.nestedLevel := by
  obtain ⟨st, lvl, pc, ln, pos, parts⟩ := t
  cases st <;> rfl

theorem handleEscape_nestedLevel (t : Tokenizer) (c1 : Char) (c2 : Option Char)
    (t1 : Tokenizer) (h : handleEscape t c1 c2 = .ok t1) :
    t1.nestedLevel = t.nestedLevel := by
  obtain ⟨st, lvl, pc, ln, pos, parts⟩ := t
  cases st <;> cases c2 <;>
    simp only [handleEscape, handleNormalCharacter] at h <;>
    (try split_ifs at h) <;>
    first
      | exact Except.noConfusion h
      | (injection h with h2; subst h2; rfl)
      | simp_all

theorem handleBracketOpen_nestedLevel (t : Tokenizer) (c : Char)
    (t1 : Tokenizer) (toks : List TokenResponse) (hlv : 0 ≤ t.nestedLevel)
    (h : handleBracketOpen t c = .ok (t1, toks)) : 0 ≤ t1.nestedLevel := by
  obtain ⟨st, lvl, pc, ln, pos, parts⟩ := t
  have hlv2 : (0 : Int) ≤ lvl := hlv
  cases st <;> simp only [handleBracketOpen, emitToken, emitNest] at h
  case inKeyWithQuote => obtain ⟨rfl, rfl⟩ := h; exact hlv2
  case inValueWithQuote => obtain ⟨rfl, rfl⟩ := h; exact hlv2
  case inKeyWithoutQuote =>
    obtain ⟨rfl, rfl⟩ := h
    show (0 : Int) ≤ lvl + 1
    omega
  case inValueWithoutQuote => exact Except.noConfusion h
  case afterKey =>
    obtain ⟨rfl, rfl⟩ := h
    show (0 : Int) ≤ lvl + 1
    omega
  case afterValue => exact Except.noConfusion h
  case commentAfterKey => obtain ⟨rfl, rfl⟩ := h; exact hlv2
  case commentAfterValue => obtain ⟨rfl, rfl⟩ := h; exact hlv2

theorem handleBracketClose_nestedLevel (t : Tokenizer) (c : Char)
    (t1 : Tokenizer) (toks : List TokenResponse) (hlv : 0 ≤ t.nestedLevel)
    (h : handleBracketClose t c = .ok (t1, toks)) : 0 ≤ t1.nestedLevel := by
  obtain ⟨st, lvl, pc, ln, pos, parts⟩ := t
  have hlv2 : (0 : Int) ≤ lvl := hlv
  cases st <;> simp only [handleBracketClose, emitToken, emitNest] at h
  case inKeyWithQuote => obtain ⟨rfl, rfl⟩ := h; exact hlv2
  case inValueWithQuote => obtain ⟨rfl, rfl⟩ := h; exact hlv2
  case inKeyWithoutQuote => exact Except.noConfusion h
  case inValueWithoutQuote =>
    split_ifs at h with hcond <;> (try dsimp only at h) <;>
      first
        | exact Except.noConfusion h
        | (obtain ⟨rfl, rfl⟩ := h
           show (0 : Int) ≤ lvl - 1
           omega)
  case afterKey => exact Except.noConfusion h
  case afterValue =>
    split_ifs at h with hcond <;> (try dsimp only at h) <;>
      first
        | exact Except.noConfusion h
        | (obtain ⟨rfl, rfl⟩ := h
           show (0 : Int) ≤ lvl - 1
           omega)
  case commentAfterKey => obtain ⟨rfl, rfl⟩ := h; exact hlv2
  case commentAfterValue => obtain ⟨rfl, rfl⟩ := h; exact hlv2

theorem parseWindow_nestedLevel (o : TokenizerOption) (t : Tokenizer)
    (c1 : Char) (c2 : Option Char) (t1 : Tokenizer) (toks : List TokenResponse)
    (hlv : 0 ≤ t.nestedLevel) (h : parseWindow o t c1 c2 = .ok (t1, toks)) :
    0 ≤ t1.nestedLevel := by
  simp only [parseWindow] at h
  split at h
  · injection h with h2
    have h3 : t.nestedLevel = t1.nestedLevel :=
      congrArg (fun p => p.1.nestedLevel) h2
    rw [← h3]; exact hlv
  · split at h
    · injection h with h2
      have h3 : (handleNewLine t c1).1.nestedLevel = t1.nestedLevel :=
        congrArg (fun p => p.1.nestedLevel) h2
      rw [handleNewLine_nestedLevel] at h3
      rw [← h3]; exact hlv
    · split at h
      · injection h with h2
        have h3 : (handleWhitespace t c1).1.nestedLevel = t1.nestedLevel :=
          congrArg (fun p => p.1.nestedLevel) h2
        rw [handleWhitespace_nestedLevel] at h3
        rw [← h3]; exact hlv
      · split at h
        · injection h with h2
          have h3 : (handleQuote t).1.nestedLevel = t1.nestedLevel :=
            congrArg (fun p => p.1.nestedLevel) h2
          rw [handleQuote_nestedLevel] at h3
          rw [← h3]; exact hlv
        · split at h
          · exact handleBracketOpen_nestedLevel t c1 t1 toks hlv h
          · split at h
            · exact handleBracketClose_nestedLevel t c1 t1 toks hlv h
            · split at h
              · split at h
                · injection h with h2
                  have h3 : (handleNormalCharacter t c1).nestedLevel = t1.nestedLevel :=
                    congrArg (fun p => p.1.nestedLevel) h2
                  rw [handleNormalCharacter_nestedLevel] at h3
                  rw [← h3]; exact hlv
                · split at h
                  · exact Except.noConfusion h
                  · rename_i ta hesc
                    injection h with h2
                    have h3 : ta.nestedLevel = t1.nestedLevel :=
                      congrArg (fun p => p.1.nestedLevel) h2
                    have he := handleEscape_nestedLevel t c1 c2 ta hesc
                    rw [← h3, he]; exact hlv
              · split at h
                · split at h
                  · injection h with h2
                    have h3 : (handleComment t).1.nestedLevel = t1.nestedLevel :=
                      congrArg (fun p => p.1.nestedLevel) h2
                    rw [handleComment_nestedLevel] at h3
                    rw [← h3]; exact hlv
                  · injection h with h2
                    have h3 : (handleNormalCharacter t c1).nestedLevel = t1.nestedLevel :=
                      congrArg (fun p => p.1.nestedLevel) h2
                    rw [handleNormalCharacter_nestedLevel] at h3
                    rw [← h3]; exact hlv
                · injection h with h2
                  have h3 : (handleNormalCharacter t c1).nestedLevel = t1.nestedLevel :=
                    congrArg (fun p => p.1.nestedLevel) h2
                  rw [handleNormalCharacter_nestedLevel] at h3
                  rw [← h3]; exact hlv

theorem ingestChar_nestedLevel (o : TokenizerOption) (t : Tokenizer) (c : Char)
    (t1 : Tokenizer) (toks : List TokenResponse) (hlv : 0 ≤ t.nestedLevel)
    (h : ingestChar o t c = .ok (t1, toks)) : 0 ≤ t1.nestedLevel := by
  simp only [ingestChar] at h
  split at h
  · injection h with h2
    have h3 : t.nestedLevel = t1.nestedLevel :=
      congrArg (fun p => p.1.nestedLevel) h2
    rw [← h3]; exact hlv
  · rename_i prev hp
    split at h
    · exact Except.noConfusion h
    · rename_i ta tks hw
      have hta := parseWindow_nestedLevel o t prev (some c) ta tks hlv hw
      injection h with h2
      have h3 :
          (if ta.previousChar.isSome then { ta with previousChar := some c } else ta).nestedLevel
            = t1.nestedLevel :=
        congrArg (fun p => p.1.nestedLevel) h2
      rw [← h3]
      split <;> exact hta

end Tokenizer

/-- C5: escape translation law at `parseWindow` with escapes enabled (the
default), in a quoted key or value: the window `\\` appends the single
character `\`, `\"` appends the single character `"`, while `\n` and `\t`
append the literal two-character backslash-letter sequences. -/
theorem C5_escape_translation (t : Tokenizer.Tokenizer)
    (hst : t.state = .inKeyWithQuote ∨ t.state = .inValueWithQuote) :
    Tokenizer.parseWindow {} t '\\' (some '\\')
      = .ok ({ t with tokenParts := t.tokenParts ++ ['\\'], currentPosition := t.currentPosition + 2, previousChar := none }, [])
    ∧ Tokenizer.parseWindow {} t '\\' (some '"')
      = .ok ({ t with tokenParts := t.tokenParts ++ ['"'], currentPosition := t.currentPosition + 2, previousChar := none }, [])
    ∧ Tokenizer.parseWindow {} t '\\' (some 'n')
      = .ok ({ t with tokenParts := t.tokenParts ++ ['\\', 'n'], currentPosition := t.currentPosition + 2, previousChar := none }, [])
    ∧ Tokenizer.parseWindow {} t '\\' (some 't')
      = .ok ({ t with tokenParts := t.tokenParts ++ ['\\', 't'], currentPosition := t.currentPosition + 2, previousChar := none }, []) := by
  obtain ⟨st, lvl, pc, ln, pos, parts⟩ := t
  rcases hst with h | h <;> subst h <;> exact ⟨rfl, rfl, rfl, rfl⟩

/-- Witness for C5 at a concrete quoted-key state. -/
theorem C5_escape_translation_witness :
    Tokenizer.parseWindow {} ⟨.inKeyWithQuote, 0, none, 0, 0, []⟩ '\\' (some '\\')
      = .ok (⟨.inKeyWithQuote, 0, none, 0, 2, ['\\']⟩, [])
    ∧ Tokenizer.parseWindow {} ⟨.inKeyWithQuote, 0, none, 0, 0, []⟩ '\\' (some '"')
      = .ok (⟨.inKeyWithQuote, 0, none, 0, 2, ['"']⟩, [])
    ∧ Tokenizer.parseWindow {} ⟨.inKeyWithQuote, 0, none, 0, 0, []⟩ '\\' (some 'n')
      = .ok (⟨.inKeyWithQuote, 0, none, 0, 2, ['\\', 'n']⟩, [])
    ∧ Tokenizer.parseWindow {} ⟨.inKeyWithQuote, 0, none, 0, 0, []⟩ '\\' (some 't')
      = .ok (⟨.inKeyWithQuote, 0, none, 0, 2, ['\\', 't']⟩, []) :=
  C5_escape_translation ⟨.inKeyWithQuote, 0, none, 0, 0, []⟩ (Or.inl rfl)

/-- C6 amended: with escapes enabled, an escape marker followed by a
character forming an unrecognized pair raises no error in a quoted state:
both characters are appended literally to the lexeme buffer via
normal-character handling, the state is unchanged and nothing is emitted. -/
theorem C6_unsupported_escape_literal (t : Tokenizer.Tokenizer) (c2 : Char)
    (hst : t.state = .inKeyWithQuote ∨ t.state = .inValueWithQuote)
    (h1 : c2 ≠ '\\') (h2 : c2 ≠ '"') (h3 : c2 ≠ 'n') (h4 : c2 ≠ 't') :
    (Tokenizer.parseWindow {} t '\\' (some c2)).map
        (fun p => (p.1.state, p.1.tokenParts, p.2))
      = .ok (t.state, t.tokenParts ++ ['\\', c2], []) := by
  obtain ⟨st, lvl, pc, ln, pos, parts⟩ := t
  rcases hst with h | h <;> subst h <;>
    simp only [Tokenizer.parseWindow, Tokenizer.handleEscape,
      Tokenizer.handleNormalCharacter, Tokenizer.ESCAPE, Tokenizer.QUOTE,
      Tokenizer.WHITE_SPACE, Tokenizer.TAB_SPACE, Tokenizer.BOM,
      Tokenizer.NEW_LINE_CHAR, Tokenizer.CARRIAGE_RETURN_CHAR,
      Tokenizer.BRACKET_OPEN, Tokenizer.BRACKET_CLOSE,
      Tokenizer.COMMENT_START_FIRST, Tokenizer.ESCAPE_SEQUENCES__KEEP_SLASH,
      Tokenizer.ESCAPE_SEQUENCES__NO_SLASH, List.mem_cons, List.mem_singleton,
      List.cons.injEq, h1, h2, h3, h4] <;>
    simp [h1, h2, h3, h4] <;> rfl

/-- Witness for the amended C6 at a concrete quoted-key state and the pair
`\e`. -/
theorem C6_unsupported_escape_literal_witness :
    (Tokenizer.parseWindow {} ⟨.inKeyWithQuote, 0, none, 0, 0, ['a']⟩ '\\' (some 'e')).map
        (fun p => (p.1.state, p.1.tokenParts, p.2))
      = .ok (.inKeyWithQuote, ['a', '\\', 'e'], []) :=
  C6_unsupported_escape_literal ⟨.inKeyWithQuote, 0, none, 0, 0, ['a']⟩ 'e'
    (Or.inl rfl) (by decide) (by decide) (by decide) (by decide)

/-- C3 amended: in a quoted key or value, any window character other than the
closing quote, the escape marker, carriage return, the byte-order mark and a
`//` comment pair is appended verbatim with no emission and no state change;
but the two-character sequence `//` DOES start a comment even inside the
quoted region: the buffered lexeme is emitted as the Key (resp. Value) token
and the state becomes CommentAfterKey (resp. CommentAfterValue). -/
theorem C3_quoted_verbatim_amended (o : Tokenizer.TokenizerOption)
    (t : Tokenizer.Tokenizer) (c1 : Char) (c2 : Option Char) :
    ((t.state = .inKeyWithQuote ∨ t.state = .inValueWithQuote) →
      c1 ≠ '"' → c1 ≠ '\\' → c1 ≠ '\r' → c1 ≠ Tokenizer.BOM →
      ¬(c1 = '/' ∧ c2 = some '/') →
      (Tokenizer.parseWindow o t c1 c2).map (fun p => (p.1.state, p.1.tokenParts, p.2))
        = .ok (t.state, t.tokenParts ++ [c1], []))
    ∧ (t.state = .inKeyWithQuote →
      Tokenizer.parseWindow o t '/' (some '/')
        = .ok ({ t with state := .commentAfterKey, tokenParts := [], currentPosition := t.currentPosition + 1, previousChar := none }, [⟨.key, t.tokenParts⟩]))
    ∧ (t.state = .inValueWithQuote →
      Tokenizer.parseWindow o t '/' (some '/')
        = .ok ({ t with state := .commentAfterValue, tokenParts := [], currentPosition := t.currentPosition + 1, previousChar := none }, [⟨.value, t.tokenParts⟩])) := by
  obtain ⟨st, lvl, pc, ln, pos, parts⟩ := t
  refine ⟨?_, ?_, ?_⟩
  · intro hst hq he hr hb hcm
    rcases hst with h | h <;> subst h <;>
    · by_cases hn : c1 = '\n'
      · subst hn; rfl
      · by_cases hw : c1 = ' '
        · subst hw; rfl
        · by_cases htb : c1 = '\t'
          · subst htb; rfl
          · by_cases ho : c1 = '{'
            · subst ho; rfl
            · by_cases hc : c1 = '}'
              · subst hc; rfl
              · by_cases hsl : c1 = '/'
                · subst hsl
                  have hc2 : ¬(c2 = some '/') := fun hh => hcm ⟨rfl, hh⟩
                  simp only [Tokenizer.parseWindow, Tokenizer.handleNormalCharacter,
                    Tokenizer.ESCAPE, Tokenizer.QUOTE, Tokenizer.WHITE_SPACE,
                    Tokenizer.TAB_SPACE, Tokenizer.BOM, Tokenizer.NEW_LINE_CHAR,
                    Tokenizer.CARRIAGE_RETURN_CHAR, Tokenizer.BRACKET_OPEN,
                    Tokenizer.BRACKET_CLOSE, Tokenizer.COMMENT_START_FIRST, hc2]
                  simp [hc2]
                  rfl
                · simp only [Tokenizer.parseWindow, Tokenizer.handleNormalCharacter,
                    Tokenizer.ESCAPE, Tokenizer.QUOTE, Tokenizer.WHITE_SPACE,
                    Tokenizer.TAB_SPACE, Tokenizer.NEW_LINE_CHAR,
                    Tokenizer.CARRIAGE_RETURN_CHAR, Tokenizer.BRACKET_OPEN,
                    Tokenizer.BRACKET_CLOSE, Tokenizer.COMMENT_START_FIRST,
                    hq, he, hr, hb, hn, hw, htb, ho, hc, hsl]
                  simp [hq, he, hr, hb, hn, hw, htb, ho, hc, hsl]
                  rfl
  · intro h; subst h; rfl
  · intro h; subst h; rfl

/-- Witness for the amended C3 at concrete quoted states. -/
theorem C3_quoted_verbatim_amended_witness :
    (Tokenizer.parseWindow {} ⟨.inKeyWithQuote, 0, none, 0, 0, ['a']⟩ 'x' none).map
        (fun p => (p.1.state, p.1.tokenParts, p.2))
      = .ok (.inKeyWithQuote, ['a', 'x'], [])
    ∧ Tokenizer.parseWindow {} ⟨.inKeyWithQuote, 0, none, 0, 0, ['a']⟩ '/' (some '/')
      = .ok (⟨.commentAfterKey, 0, none, 0, 1, []⟩, [⟨.key, ['a']⟩])
    ∧ Tokenizer.parseWindow {} ⟨.inValueWithQuote, 0, none, 0, 0, ['a']⟩ '/' (some '/')
      = .ok (⟨.commentAfterValue, 0, none, 0, 1, []⟩, [⟨.value, ['a']⟩]) :=
  ⟨(C3_quoted_verbatim_amended {} ⟨.inKeyWithQuote, 0, none, 0, 0, ['a']⟩ 'x' none).1
      (Or.inl rfl) (by decide) (by decide) (by decide) (by decide) (by decide),
   (C3_quoted_verbatim_amended {} ⟨.inKeyWithQuote, 0, none, 0, 0, ['a']⟩ '/' (some '/')).2.1 rfl,
   (C3_quoted_verbatim_amended {} ⟨.inValueWithQuote, 0, none, 0, 0, ['a']⟩ '/' (some '/')).2.2 rfl⟩

/-- C7: bracket discipline. NestStart emission increments the depth counter;
NestEnd emission decrements it when it is positive; a close with the counter
already at (or below) zero raises TooManyBrackets; any successful ingestion
step preserves non-negativity of the counter; and tokenizing `key {}}`
raises TooManyBrackets. -/
theorem C7_bracket_discipline :
    (∀ t : Tokenizer.Tokenizer,
      Tokenizer.emitNest t .nestStart
        = .ok ({ t with nestedLevel := t.nestedLevel + 1 }, ⟨.nest, ['{']⟩))
    ∧ (∀ t : Tokenizer.Tokenizer, 0 < t.nestedLevel →
      Tokenizer.emitNest t .nestEnd
        = .ok ({ t with nestedLevel := t.nestedLevel - 1 }, ⟨.nest, ['}']⟩))
    ∧ (∀ t : Tokenizer.Tokenizer, t.nestedLevel ≤ 0 →
      Tokenizer.emitNest t .nestEnd = .error .tooManyBrackets)
    ∧ (∀ (o : Tokenizer.TokenizerOption) (t : Tokenizer.Tokenizer) (c : Char)
        (t1 : Tokenizer.Tokenizer) (toks : List Tokenizer.TokenResponse),
      0 ≤ t.nestedLevel → Tokenizer.ingestChar o t c = .ok (t1, toks) →
      0 ≤ t1.nestedLevel)
    ∧ Tokenizer.tokenizeTokens {} ['k', 'e', 'y', ' ', '{', '}', '}']
      = .error .tooManyBrackets := by
  refine ⟨fun t => rfl, ?_, ?_, ?_, by decide⟩
  · intro t h
    simp only [Tokenizer.emitNest]
    rw [if_neg (by omega)]
  · intro t h
    simp only [Tokenizer.emitNest]
    rw [if_pos (by omega)]
  · exact fun o t c t1 toks hlv h =>
      Tokenizer.ingestChar_nestedLevel o t c t1 toks hlv h

/-- Witness for C7 at concrete depth counters and a concrete ingestion. -/
theorem C7_bracket_discipline_witness :
    Tokenizer.emitNest {} .nestStart
      = .ok ({ nestedLevel := 1 }, ⟨.nest, ['{']⟩)
    ∧ Tokenizer.emitNest { nestedLevel := 1 } .nestEnd
      = .ok ({ nestedLevel := 0 }, ⟨.nest, ['}']⟩)
    ∧ Tokenizer.emitNest {} .nestEnd = .error .tooManyBrackets
    ∧ 0 ≤ ({ previousChar := some 'x' } : Tokenizer.Tokenizer).nestedLevel :=
  ⟨C7_bracket_discipline.1 {},
   C7_bracket_discipline.2.1 { nestedLevel := 1 } (by decide),
   C7_bracket_discipline.2.2.1 {} (by decide),
   C7_bracket_discipline.2.2.2.1 {} {} 'x' { previousChar := some 'x' } []
     (by decide) (by decide)⟩
